import Mathlib

/-!
# Verification of the `emergent` hierarchical memory core

A shallow embedding, in Lean 4, of the hierarchical memory consolidation
engine of the `emergent` repository (file `emergent/memory.py`), together
with theorems settling the specification claims about it.

Modelling conventions:
* Python strings are `String`; the handful of string primitives the source
  uses (`str.lower`, `str.replace` with a one-character pattern and empty
  replacement, `str.split`, the `in` substring test) are re-implemented
  over `List Char` so that every concrete evaluation goes through the
  kernel.
* Python floats are modelled as real numbers; the extra IEEE values that
  numpy produces on division by zero are captured by the `PyFloat` type.
  Embedding vectors are rational-valued lists (`List ℚ`), cast into `ℝ`
  where the code does float arithmetic on them.
* `uuid.uuid4()` and `datetime.now()` are modelled by a counter threaded
  through the stateful operations; Python object identity (needed for the
  aliasing questions about deserialization) is modelled by an explicit
  `addr` field on summary nodes, likewise allocated from the counter.
* Remote LLM/embedding services (`chat_gpt_prompt`-decorated methods and
  `get_embedding`) are modelled by an `Oracle` of response functions; the
  theorems quantify over all oracles.
* A raised Python exception in a fallible operation is modelled by an
  `Option`/`Bool` flag; state mutations performed before the raise point
  are kept, as in Python.
-/

/-! ## Character-list string primitives -/

/-- `leadsWith pat l` holds when `pat` is an initial segment of `l`
(character-list version of string prefix testing). -/
def leadsWith : List Char → List Char → Bool
  | [], _ => true
  | _ :: _, [] => false
  | a :: ps, b :: ls => a = b && leadsWith ps ls

/-- `containsSub pat l` models the Python substring test `pat in l`:
`pat` occurs contiguously inside `l`. -/
def containsSub (pat : List Char) : List Char → Bool
  | [] => leadsWith pat []
  | c :: t => leadsWith pat (c :: t) || containsSub pat t

/-- Python `pat in s` on strings. -/
def strHas (s pat : String) : Bool :=
  containsSub pat.toList s.toList

/-- Python `str.lower()` (ASCII case folding suffices for the sentinel). -/
def lowerStr (s : String) : String :=
  String.mk (s.toList.map Char.toLower)

/-- Python `s.split(sep)` for a one-character separator `sep`:
splits on every occurrence, keeping empty fields (`"".split(";") = [""]`,
`";".split(";") = ["", ""]`). -/
def splitOnCharL (sep : Char) : List Char → List (List Char)
  | [] => [[]]
  | c :: t =>
    let r := splitOnCharL sep t
    if c = sep then [] :: r
    else
      match r with
      | [] => [[c]]
      | h :: t2 => (c :: h) :: t2

/-- Python `s.split(sep)` on strings, one-character separator. -/
def pySplit (s : String) (sep : Char) : List String :=
  (splitOnCharL sep s.toList).map String.mk

/-- Python `s.replace(c, "")` for a one-character pattern: removes every
occurrence of `c`. -/
def removeChar (c : Char) (s : String) : String :=
  String.mk (s.toList.filter (fun d => d ≠ c))

/-- The apostrophe character, i.e. the pattern of the
`new_topics_string.replace(...)` quote-stripping call in
`create_new_topics`. -/
def quoteChar : Char := Char.ofNat 39

/-! ## Gap-fill response parsing (`HierarchicalMemory.create_new_topics`) -/

/-- The sentinel test of `create_new_topics` (memory.py line 395):
`"no topic found" in new_topics_string.lower()`. -/
def hasSentinel (new_topics_string : String) : Bool :=
  strHas (lowerStr new_topics_string) "no topic found"

/-- The parsing portion of `HierarchicalMemory.create_new_topics`
(memory.py lines 393-404), as a function of the raw gap-fill service
response.  Faithful to the source:
* if the lowercased response contains `"no topic found"` the method
  returns Python `None` (modelled `none`), not an empty list;
* apostrophes are removed (`replace("'", "")` line 398);
* lines 399-400 evaluate `new_topics_string.replace("[", "")` and
  `new_topics_string.replace("]", "")` but discard the results, so
  brackets are NOT removed;
* the remaining text is split on `';'` with no trimming or filtering. -/
def parseNewTopics (new_topics_string : String) : Option (List String) :=
  if hasSentinel new_topics_string then none
  else
    let s1 := removeChar quoteChar new_topics_string
    -- (the two discarded bracket `replace` calls of lines 399-400 leave `s1` unchanged)
    some (pySplit s1 ';')

example : parseNewTopics "[no topic found]" = none := by decide
example : parseNewTopics "  NO Topic Found " = none := by decide
example : parseNewTopics "[Topic A; Topic B]" = some ["[Topic A", " Topic B]"] := by decide
example : parseNewTopics "a;;b" = some ["a", "", "b"] := by decide

/-! ## Data model (memory.py classes)

`content`, `embedding` and `topic` start out unset in the Python
constructors and are filled in by `generate_summary` / `generate_article`
before any node is routed or serialized; the model types `content` and
`embedding` as the filled-in values (every flow modelled here has them
set).  `topic` genuinely persists as `None` for articles never given a
label, so it stays an `Option`. -/

/-- A `datetime` value as it lives in the object graph: either a real
timestamp (`datetime.now()`, modelled by a counter tick) or the textual
ISO form that `from_dict` reads back from a serialized document without
converting it to a `datetime` again. -/
inductive PyTime where
  | dt (t : Nat)
  | text (s : String)
deriving DecidableEq, Repr

/-- The textual encoding that `DateTimeEncoder` produces for a
`datetime` (`obj.isoformat()`, modelled abstractly as the decimal print
of the timestamp counter); an already-textual value serializes as
itself. -/
def PyTime.enc : PyTime → String
  | .dt t => toString t
  | .text s => s

/-- `MemoryLog` (memory.py lines 22-49): one raw chat turn. -/
structure MemoryLog where
  id : String
  role : String
  content : String
  created_at : PyTime
deriving DecidableEq, Repr

/-- `SummaryNode` (memory.py lines 52-119): the rollup of one window of
logs.  `addr` models Python object identity (which concrete object this
record is); it is no part of the serialized data. -/
structure SummaryNode where
  addr : Nat
  id : String
  logs : List MemoryLog
  content : String
  embedding : List ℚ
  created_at : PyTime
  model : String
deriving DecidableEq, Repr

/-- `KnowledgeNode` (memory.py lines 122-236): a topic article built from
one or more summary nodes. -/
structure KnowledgeNode where
  id : String
  summary_nodes : List SummaryNode
  topic : Option String
  content : String
  embedding : List ℚ
  model : String
deriving DecidableEq, Repr

instance : Inhabited KnowledgeNode :=
  ⟨{ id := "", summary_nodes := [], topic := none, content := "",
     embedding := [], model := "" }⟩

/-- `HierarchicalMemory` (memory.py lines 239-443): the store. -/
structure HierarchicalMemory where
  logs : List MemoryLog
  summary_nodes : List SummaryNode
  knowledge_nodes : List KnowledgeNode
  rolling_window_size : Nat
  model : String
deriving DecidableEq, Repr

/-- `HierarchicalMemory.__init__` (memory.py lines 257-262): empty
collections, window size 20, caller-chosen model (default
`"gpt-3.5-turbo"`). -/
def HierarchicalMemory.mkInit (model : String) : HierarchicalMemory :=
  { logs := [], summary_nodes := [], knowledge_nodes := [],
    rolling_window_size := 20, model := model }

/-! ## JSON documents

`to_json` renders with `json.dumps` and `from_json` re-parses with
`json.load`; since `dumps` followed by `load` is the identity on JSON
values, the model works directly with a JSON value type `JVal` and treats
the textual rendering as the identity. -/

/-- A parsed JSON document. -/
inductive JVal where
  | null : JVal
  | str : String → JVal
  | num : ℚ → JVal
  | arr : List JVal → JVal
  | obj : List (String × JVal) → JVal

/-- Key lookup in a JSON object (`data["k"]` / `data.get("k")`);
`none` when the key is absent or the value is not an object. -/
def jGet (k : String) : JVal → Option JVal
  | .obj kvs => kvs.lookup k
  | _ => none

/-- The string payload of a JSON value, when it is a string. -/
def JVal.asStr : JVal → Option String
  | .str s => some s
  | _ => none

/-- The elements of a JSON value, when it is an array. -/
def JVal.asArr : JVal → Option (List JVal)
  | .arr l => some l
  | _ => none

/-- Decode a JSON array of numbers into an embedding vector. -/
def decodeEmbedding : List JVal → Option (List ℚ)
  | [] => some []
  | .num q :: t => (decodeEmbedding t).map (fun r => q :: r)
  | _ => none

/-- The top-level keys of a JSON object document. -/
def jKeys : JVal → List String
  | .obj kvs => kvs.map Prod.fst
  | _ => []

/-! ## Serialization (`to_dict` / `to_json`, memory.py lines 36-42, 100-108, 215-223, 413-426)

Each `to_dict` below is the dictionary the Python method returns, already
pushed through `json.dumps` with `DateTimeEncoder` (so `datetime` fields
appear in their textual `isoformat` encoding, ids via `str(...)`). -/

/-- `MemoryLog.to_dict`. -/
def MemoryLog.to_dict (l : MemoryLog) : JVal :=
  .obj [("id", .str l.id), ("role", .str l.role),
        ("content", .str l.content), ("created_at", .str l.created_at.enc)]

/-- `SummaryNode.to_dict`.  Note: `addr` (object identity) is not a field
of the Python object's `__dict__` and is not serialized. -/
def SummaryNode.to_dict (s : SummaryNode) : JVal :=
  .obj [("id", .str s.id),
        ("logs", .arr (s.logs.map MemoryLog.to_dict)),
        ("content", .str s.content),
        ("embedding", .arr (s.embedding.map JVal.num)),
        ("created_at", .str s.created_at.enc),
        ("model", .str s.model)]

/-- `KnowledgeNode.to_dict`: the referenced summary nodes are serialized
inline as full nested dictionaries. -/
def KnowledgeNode.to_dict (k : KnowledgeNode) : JVal :=
  .obj [("id", .str k.id),
        ("summary_nodes", .arr (k.summary_nodes.map SummaryNode.to_dict)),
        ("content", .str k.content),
        ("embedding", .arr (k.embedding.map JVal.num)),
        ("model", .str k.model),
        ("topic", (k.topic.map JVal.str).getD .null)]

/-- `HierarchicalMemory.to_json` (memory.py lines 413-426): the persisted
document, a top-level object with exactly the three collections.  The
store-level `model` and `rolling_window_size` are not written. -/
def HierarchicalMemory.to_json (m : HierarchicalMemory) : JVal :=
  .obj [("logs", .arr (m.logs.map MemoryLog.to_dict)),
        ("summary_nodes", .arr (m.summary_nodes.map SummaryNode.to_dict)),
        ("knowledge_nodes", .arr (m.knowledge_nodes.map KnowledgeNode.to_dict))]

/-! ## Deserialization (`from_dict` / `from_json`, memory.py lines 44-49, 110-119, 225-236, 428-443)

A Python `raise` (missing key, wrong shape) is modelled by `none`.  Each
`SummaryNode.from_dict` call constructs a fresh object, so it consumes one
address from the allocation counter that models object identity; the
counter is threaded left to right exactly in the evaluation order of the
Python list comprehensions. -/

/-- `MemoryLog.from_dict`: builds a fresh log and overwrites `id` and
`created_at` with the stored values.  The stored `created_at` is assigned
raw — it stays the ISO text, it is not parsed back into a `datetime`. -/
def MemoryLog.from_dict (d : JVal) : Option MemoryLog := do
  let role ← (jGet "role" d).bind JVal.asStr
  let content ← (jGet "content" d).bind JVal.asStr
  let id ← (jGet "id" d).bind JVal.asStr
  let created ← (jGet "created_at" d).bind JVal.asStr
  pure { id := id, role := role, content := content,
         created_at := .text created }

/-- Decode a serialized list of logs (the `data["logs"]` comprehension). -/
def decodeLogs : List JVal → Option (List MemoryLog)
  | [] => some []
  | d :: t => do
    let l ← MemoryLog.from_dict d
    let r ← decodeLogs t
    pure (l :: r)

/-- `SummaryNode.from_dict`: a fresh object (fresh address `c`), fields
from the document; `model` via `data.get("model", "gpt-3.5-turbo")`. -/
def SummaryNode.from_dict (d : JVal) (c : Nat) : Option (SummaryNode × Nat) := do
  let logsJ ← (jGet "logs" d).bind JVal.asArr
  let logs ← decodeLogs logsJ
  let model ← match jGet "model" d with
    | none => some "gpt-3.5-turbo"
    | some v => v.asStr
  let id ← (jGet "id" d).bind JVal.asStr
  let content ← (jGet "content" d).bind JVal.asStr
  let created ← (jGet "created_at" d).bind JVal.asStr
  let embJ ← (jGet "embedding" d).bind JVal.asArr
  let emb ← decodeEmbedding embJ
  pure ({ addr := c, id := id, logs := logs, content := content,
          embedding := emb, created_at := .text created, model := model }, c + 1)

/-- Decode a serialized list of summary nodes, allocating an address for
each (the `data["summary_nodes"]` comprehension). -/
def decodeSNodes : List JVal → Nat → Option (List SummaryNode × Nat)
  | [], c => some ([], c)
  | d :: t, c => do
    let (s, c1) ← SummaryNode.from_dict d c
    let (r, c2) ← decodeSNodes t c1
    pure (s :: r, c2)

/-- `KnowledgeNode.from_dict`: the nested summary-node dictionaries are
decoded into fresh `SummaryNode` objects of their own. -/
def KnowledgeNode.from_dict (d : JVal) (c : Nat) : Option (KnowledgeNode × Nat) := do
  let snJ ← (jGet "summary_nodes" d).bind JVal.asArr
  let (sns, c1) ← decodeSNodes snJ c
  let model ← match jGet "model" d with
    | none => some "gpt-3.5-turbo"
    | some v => v.asStr
  let id ← (jGet "id" d).bind JVal.asStr
  let content ← (jGet "content" d).bind JVal.asStr
  let embJ ← (jGet "embedding" d).bind JVal.asArr
  let emb ← decodeEmbedding embJ
  let topic ← match jGet "topic" d with
    | some .null => some none
    | some (.str s) => some (some s)
    | _ => none
  pure ({ id := id, summary_nodes := sns, topic := topic, content := content,
          embedding := emb, model := model }, c1)

/-- Decode a serialized list of knowledge nodes. -/
def decodeKNodes : List JVal → Nat → Option (List KnowledgeNode × Nat)
  | [], c => some ([], c)
  | d :: t, c => do
    let (k, c1) ← KnowledgeNode.from_dict d c
    let (r, c2) ← decodeKNodes t c1
    pure (k :: r, c2)

/-- `HierarchicalMemory.from_json` (memory.py lines 428-443) applied to an
already-parsed document: `memory = cls()` (all construction defaults:
model `"gpt-3.5-turbo"`, window size 20) and the three collections decoded
from the document.  Any missing key or ill-shaped field raises (`none`). -/
def HierarchicalMemory.from_json (d : JVal) (c : Nat) :
    Option (HierarchicalMemory × Nat) := do
  let logsJ ← (jGet "logs" d).bind JVal.asArr
  let logs ← decodeLogs logsJ
  let snJ ← (jGet "summary_nodes" d).bind JVal.asArr
  let (sns, c1) ← decodeSNodes snJ c
  let knJ ← (jGet "knowledge_nodes" d).bind JVal.asArr
  let (kns, c2) ← decodeKNodes knJ c1
  pure ({ HierarchicalMemory.mkInit "gpt-3.5-turbo" with
          logs := logs, summary_nodes := sns, knowledge_nodes := kns }, c2)

/-- The whole load operation `HierarchicalMemory.from_json(path)`
(memory.py lines 428-431): `open(path)` followed by `json.load(f)`.
A missing file or a file whose content is not parseable JSON raises
before the decoding body runs; both conditions are modelled by the
document being `none`. -/
def loadMemory (doc : Option JVal) (c : Nat) : Option (HierarchicalMemory × Nat) :=
  doc.bind (fun d => HierarchicalMemory.from_json d c)

/-- The load sequence of the entry points (main.py lines 12-17 and
tests/main.py lines 12-17): `try: memory = HierarchicalMemory.from_json(path)`
with `except: memory = HierarchicalMemory()` — on any load failure the
caller falls back to a freshly constructed empty store. -/
def loadOrInit (doc : Option JVal) (c : Nat) : HierarchicalMemory :=
  match loadMemory doc c with
  | some (m, _) => m
  | none => HierarchicalMemory.mkInit "gpt-3.5-turbo"

/-! ## The exact effect of a serialize/deserialize round trip -/

/-- What deserialization makes of a serialized log: the same log, with
`created_at` left in its textual encoding. -/
def MemoryLog.rt (l : MemoryLog) : MemoryLog :=
  { l with created_at := .text l.created_at.enc }

/-- What deserialization makes of one serialized summary node, allocated
at address `c`. -/
def SummaryNode.rt (s : SummaryNode) (c : Nat) : SummaryNode :=
  { s with addr := c, logs := s.logs.map MemoryLog.rt,
           created_at := .text s.created_at.enc }

/-- Round-trip image of a summary-node list with sequential addresses. -/
def rtSNodes : List SummaryNode → Nat → List SummaryNode × Nat
  | [], c => ([], c)
  | s :: t, c =>
    let (r, c2) := rtSNodes t (c + 1)
    (s.rt c :: r, c2)

/-- Round-trip image of one knowledge node: its nested summary nodes are
rebuilt as fresh objects with addresses from `c` on. -/
def KnowledgeNode.rt (k : KnowledgeNode) (c : Nat) : KnowledgeNode :=
  { k with summary_nodes := (rtSNodes k.summary_nodes c).1 }

/-- Round-trip image of a knowledge-node list. -/
def rtKNodes : List KnowledgeNode → Nat → List KnowledgeNode × Nat
  | [], c => ([], c)
  | k :: t, c =>
    let (r, c2) := rtKNodes t (c + k.summary_nodes.length)
    (k.rt c :: r, c2)

/-- Round-trip image of a whole store: collections rebuilt, store-level
`model` and `rolling_window_size` replaced by the construction defaults. -/
def HierarchicalMemory.rt (m : HierarchicalMemory) (c : Nat) : HierarchicalMemory :=
  { logs := m.logs.map MemoryLog.rt,
    summary_nodes := (rtSNodes m.summary_nodes c).1,
    knowledge_nodes := (rtKNodes m.knowledge_nodes (rtSNodes m.summary_nodes c).2).1,
    rolling_window_size := 20, model := "gpt-3.5-turbo" }

lemma memoryLog_from_to (l : MemoryLog) :
    MemoryLog.from_dict l.to_dict = some l.rt := by
  simp [MemoryLog.from_dict, MemoryLog.to_dict, jGet, List.lookup, JVal.asStr,
    MemoryLog.rt]

lemma decodeLogs_map (ls : List MemoryLog) :
    decodeLogs (ls.map MemoryLog.to_dict) = some (ls.map MemoryLog.rt) := by
  induction ls with
  | nil => rfl
  | cons h t ih => simp [decodeLogs, memoryLog_from_to, ih]

lemma decodeEmbedding_map (e : List ℚ) :
    decodeEmbedding (e.map JVal.num) = some e := by
  induction e with
  | nil => rfl
  | cons h t ih => simp [decodeEmbedding, ih]

lemma summaryNode_from_to (s : SummaryNode) (c : Nat) :
    SummaryNode.from_dict s.to_dict c = some (s.rt c, c + 1) := by
  simp [SummaryNode.from_dict, SummaryNode.to_dict, jGet, List.lookup,
    JVal.asStr, JVal.asArr, decodeLogs_map, decodeEmbedding_map, SummaryNode.rt]

lemma decodeSNodes_map (ls : List SummaryNode) (c : Nat) :
    decodeSNodes (ls.map SummaryNode.to_dict) c = some (rtSNodes ls c) := by
  induction ls generalizing c with
  | nil => rfl
  | cons h t ih => simp [decodeSNodes, summaryNode_from_to, ih, rtSNodes]

lemma rtSNodes_counter (ls : List SummaryNode) (c : Nat) :
    (rtSNodes ls c).2 = c + ls.length := by
  induction ls generalizing c with
  | nil => simp [rtSNodes]
  | cons h t ih => simp [rtSNodes, ih]; omega

lemma knowledgeNode_from_to (k : KnowledgeNode) (c : Nat) :
    KnowledgeNode.from_dict k.to_dict c =
      some (k.rt c, c + k.summary_nodes.length) := by
  cases ht : k.topic with
  | none =>
    simp [KnowledgeNode.from_dict, KnowledgeNode.to_dict, jGet, List.lookup,
      JVal.asStr, JVal.asArr, decodeSNodes_map, decodeEmbedding_map,
      KnowledgeNode.rt, rtSNodes_counter, ht]
  | some topic =>
    simp [KnowledgeNode.from_dict, KnowledgeNode.to_dict, jGet, List.lookup,
      JVal.asStr, JVal.asArr, decodeSNodes_map, decodeEmbedding_map,
      KnowledgeNode.rt, rtSNodes_counter, ht]

lemma decodeKNodes_map (ls : List KnowledgeNode) (c : Nat) :
    decodeKNodes (ls.map KnowledgeNode.to_dict) c = some (rtKNodes ls c) := by
  induction ls generalizing c with
  | nil => rfl
  | cons h t ih => simp [decodeKNodes, knowledgeNode_from_to, ih, rtKNodes]

/-- The full round trip: deserializing a serialized store always succeeds
and produces exactly the `rt` image of the store. -/
lemma from_json_to_json (m : HierarchicalMemory) (c : Nat) :
    HierarchicalMemory.from_json m.to_json c =
      some (m.rt c, (rtKNodes m.knowledge_nodes (rtSNodes m.summary_nodes c).2).2) := by
  simp [HierarchicalMemory.from_json, HierarchicalMemory.to_json, jGet,
    List.lookup, JVal.asArr, decodeLogs_map, decodeSNodes_map, decodeKNodes_map,
    HierarchicalMemory.rt, HierarchicalMemory.mkInit]

/-! ## Value views of the object graph

The fields the round-trip claim enumerates (ids, roles, contents,
embeddings, topics, and the nested structure of these), deliberately
excluding object identity (`addr`) and the representation of
`created_at`. -/

/-- The claim-listed value content of a log. -/
def logView (l : MemoryLog) : String × String × String :=
  (l.id, l.role, l.content)

/-- The claim-listed value content of a summary node. -/
def snView (s : SummaryNode) :
    String × String × List ℚ × List (String × String × String) :=
  (s.id, s.content, s.embedding, s.logs.map logView)

/-- The claim-listed value content of a topic article, including the
value content of its referenced summary nodes. -/
def knView (k : KnowledgeNode) :
    String × Option String × String × List ℚ ×
      List (String × String × List ℚ × List (String × String × String)) :=
  (k.id, k.topic, k.content, k.embedding, k.summary_nodes.map snView)

lemma logView_rt (l : MemoryLog) : logView l.rt = logView l := rfl

lemma snView_rt (s : SummaryNode) (c : Nat) : snView (s.rt c) = snView s := by
  simp only [snView, SummaryNode.rt, List.map_map]
  exact congrArg _ (congrArg _ (congrArg _ (List.map_congr_left (fun a _ => rfl))))

lemma rtSNodes_view (ls : List SummaryNode) (c : Nat) :
    (rtSNodes ls c).1.map snView = ls.map snView := by
  induction ls generalizing c with
  | nil => rfl
  | cons h t ih => simp [rtSNodes, snView_rt, ih]

lemma knView_rt (k : KnowledgeNode) (c : Nat) : knView (k.rt c) = knView k := by
  simp [knView, KnowledgeNode.rt, rtSNodes_view]

lemma rtKNodes_view (ls : List KnowledgeNode) (c : Nat) :
    (rtKNodes ls c).1.map knView = ls.map knView := by
  induction ls generalizing c with
  | nil => rfl
  | cons h t ih => simp [rtKNodes, knView_rt, ih]

/-! ## Concrete store exercising the shared-reference question -/

/-- A concrete log. -/
def logX : MemoryLog :=
  { id := "log-1", role := "user", content := "hello", created_at := .dt 3 }

/-- A concrete summary node, object address 5. -/
def snX : SummaryNode :=
  { addr := 5, id := "sn-1", logs := [logX], content := "summary text",
    embedding := [1, 0], created_at := .dt 4, model := "m-sn" }

/-- A concrete article holding a reference to the very object `snX`
(same address) that the store lists at top level. -/
def knX : KnowledgeNode :=
  { id := "kn-1", summary_nodes := [snX], topic := some "greetings",
    content := "article text", embedding := [0, 1], model := "m-kn" }

/-- A store in which the article's summary-node reference and the
top-level summary-node entry are the same object (`addr` 5 on both
paths), with non-default store settings. -/
def memX : HierarchicalMemory :=
  { logs := [logX], summary_nodes := [snX], knowledge_nodes := [knX],
    rolling_window_size := 7, model := "m-store" }

/-- Address of the first top-level summary node of a store. -/
def firstTopAddr (m : HierarchicalMemory) : Option Nat :=
  m.summary_nodes.head?.map SummaryNode.addr

/-- Address of the first summary node referenced by the first article of
a store. -/
def firstRefAddr (m : HierarchicalMemory) : Option Nat :=
  m.knowledge_nodes.head?.bind (fun k => k.summary_nodes.head?.map SummaryNode.addr)

example : firstTopAddr memX = some 5 ∧ firstRefAddr memX = some 5 := by decide
example :
    (loadMemory (some memX.to_json) 0).map (fun p => firstTopAddr p.1) = some (some 0)
    ∧ (loadMemory (some memX.to_json) 0).map (fun p => firstRefAddr p.1) = some (some 1) := by
  decide

/-! ## `cosine_similarity` (memory.py lines 9-10)

`np.dot(a, b) / (np.linalg.norm(a) * np.linalg.norm(b))` on float
vectors.  numpy float division is total: dividing by zero does not raise,
it emits a runtime warning and produces `nan` (for `0/0`) or `±inf`; the
codomain `PyFloat` records exactly these outcomes. -/

/-- `np.dot` on vectors, over the rationals. -/
def dotQ (a b : List ℚ) : ℚ :=
  (List.zipWith (· * ·) a b).sum

/-- A numpy float result: an ordinary (real) value, or one of the IEEE
non-finite values that division by zero produces. -/
inductive PyFloat where
  | real (r : ℝ)
  | nan
  | inf
  | neginf

/-- numpy float division: total; `0/0` is `nan`, `x/0` is `±inf` for
nonzero `x` (a runtime warning, not an exception). -/
noncomputable def pyDiv (x y : ℝ) : PyFloat :=
  if y = 0 then
    if x = 0 then .nan else if 0 < x then .inf else .neginf
  else .real (x / y)

/-- `np.linalg.norm`: the Euclidean norm, `sqrt` of the sum of squares. -/
noncomputable def normE (a : List ℚ) : ℝ :=
  Real.sqrt ((dotQ a a : ℚ) : ℝ)

/-- `cosine_similarity(a, b)` (memory.py lines 9-10), with numpy's
division semantics. -/
noncomputable def cosine_similarity (a b : List ℚ) : PyFloat :=
  pyDiv ((dotQ a b : ℚ) : ℝ) (normE a * normE b)

/-- The real value of the cosine similarity, used by the routing and
query code where the embeddings have nonzero norm (there `pyDiv` returns
exactly this value; see `cosine_similarity_real`). -/
noncomputable def cosSimR (a b : List ℚ) : ℝ :=
  ((dotQ a b : ℚ) : ℝ) / (normE a * normE b)

lemma dotQ_comm (a b : List ℚ) : dotQ a b = dotQ b a := by
  unfold dotQ
  congr 1
  induction a generalizing b with
  | nil => cases b <;> rfl
  | cons x xs ih =>
    cases b with
    | nil => rfl
    | cons y ys => simp [List.zipWith, ih, mul_comm]

lemma dotQ_self_nonneg (a : List ℚ) : 0 ≤ dotQ a a := by
  unfold dotQ
  induction a with
  | nil => simp
  | cons x xs ih => simpa [List.zipWith] using add_nonneg (mul_self_nonneg x) ih

lemma cosine_similarity_real (a b : List ℚ) (h : normE a * normE b ≠ 0) :
    cosine_similarity a b = .real (cosSimR a b) := by
  simp [cosine_similarity, cosSimR, pyDiv, h]


example : cosine_similarity [0] [1] = PyFloat.nan := by
  have h0 : dotQ [(0 : ℚ)] [1] = 0 := by simp [dotQ]
  have h1 : dotQ [(0 : ℚ)] [0] = 0 := by simp [dotQ]
  simp [cosine_similarity, pyDiv, normE, h0, h1]

/-! ## `HierarchicalMemory.query` (memory.py lines 264-276)

`max(self.knowledge_nodes, key=...)` scans left to right and replaces the
current best only on a strictly larger key, so the first element
attaining the maximum wins. -/

/-- Python `max(x :: xs, key=f)`. -/
noncomputable def pyMax {α : Type} (f : α → ℝ) (x : α) (xs : List α) : α :=
  xs.foldl (fun best y => if f best < f y then y else best) x

/-- `HierarchicalMemory.query`, as a function of the query embedding the
embedding service returned for the query text: `none` on an empty article
collection, otherwise the article maximizing the cosine similarity of its
embedding with the query embedding. -/
noncomputable def HierarchicalMemory.query (m : HierarchicalMemory)
    (query_embedding : List ℚ) : Option KnowledgeNode :=
  match m.knowledge_nodes with
  | [] => none
  | x :: xs =>
    some (pyMax (fun node => cosSimR node.embedding query_embedding) x xs)

lemma pyMax_cons {α : Type} (f : α → ℝ) (x b : α) (t : List α) :
    pyMax f x (b :: t) = pyMax f (if f x < f b then b else x) t := rfl

lemma pyMax_le {α : Type} (f : α → ℝ) :
    ∀ (xs : List α) (x : α),
      f x ≤ f (pyMax f x xs) ∧ ∀ z ∈ xs, f z ≤ f (pyMax f x xs) := by
  intro xs
  induction xs with
  | nil =>
    intro x
    refine ⟨le_refl _, ?_⟩
    intro z hz
    simp at hz
  | cons b t ih =>
    intro x
    rcases le_or_lt (f b) (f x) with hle | hlt
    · rw [pyMax_cons, if_neg (not_lt.mpr hle)]
      refine ⟨(ih x).1, ?_⟩
      intro z hz
      rcases List.mem_cons.mp hz with rfl | hz2
      · exact le_trans hle (ih x).1
      · exact (ih x).2 z hz2
    · rw [pyMax_cons, if_pos hlt]
      refine ⟨le_trans hlt.le (ih b).1, ?_⟩
      intro z hz
      rcases List.mem_cons.mp hz with hzb | hz2
      · rw [hzb]
        exact (ih b).1
      · exact (ih b).2 z hz2

lemma pyMax_first {α : Type} (f : α → ℝ) :
    ∀ (xs : List α) (x : α),
      ∃ l1 l2, x :: xs = l1 ++ pyMax f x xs :: l2 ∧
        ∀ z ∈ l1, f z < f (pyMax f x xs) := by
  intro xs
  induction xs with
  | nil =>
    intro x
    refine ⟨[], [], rfl, ?_⟩
    intro z hz
    simp at hz
  | cons b t ih =>
    intro x
    rcases le_or_lt (f b) (f x) with hle | hlt
    · rw [pyMax_cons, if_neg (not_lt.mpr hle)]
      obtain ⟨l1, l2, hd, hs⟩ := ih x
      cases l1 with
      | nil =>
        simp only [List.nil_append] at hd
        have hx : pyMax f x t = x := by
          injection hd with h1 h2
          exact h1.symm
        refine ⟨[], b :: t, by simp [hx], ?_⟩
        intro z hz
        simp at hz
      | cons h1 t1 =>
        simp only [List.cons_append] at hd
        injection hd with he ht
        have hxlt : f x < f (pyMax f x t) := by
          have := hs h1 (by simp)
          rwa [← he] at this
        refine ⟨x :: b :: t1, l2, ?_, ?_⟩
        · conv_lhs => rw [ht]
          simp
        · intro z hz
          rcases List.mem_cons.mp hz with rfl | hz2
          · exact hxlt
          · rcases List.mem_cons.mp hz2 with rfl | hz3
            · exact lt_of_le_of_lt hle hxlt
            · exact hs z (by simp [hz3])
    · rw [pyMax_cons, if_pos hlt]
      obtain ⟨l1, l2, hd, hs⟩ := ih b
      refine ⟨x :: l1, l2, ?_, ?_⟩
      · simp only [List.cons_append]
        rw [← hd]
      · intro z hz
        rcases List.mem_cons.mp hz with rfl | hz2
        · exact lt_of_lt_of_le hlt (pyMax_le f t b).1
        · exact hs z hz2

/-! ## External services (`Oracle`)

The `chat_gpt_prompt`-decorated methods and `get_embedding` submit a
prompt to a remote model and hand back its text (or a vector).  The model
abstracts each remote call as a function of the data the prompt is built
from; the theorems quantify over all oracles, so nothing is assumed about
the services' behaviour. -/

/-- The remote services consumed by the memory core. -/
structure Oracle where
  /-- `SummaryNode._summary_prompt` (summarize one window of logs). -/
  summarize : List MemoryLog → String
  /-- `get_embedding`. -/
  embed : String → List ℚ
  /-- `HierarchicalMemory._llm_classification` (lines 284-300). -/
  classify : SummaryNode → KnowledgeNode → String
  /-- `KnowledgeNode._update_article_prompt` (old content, new summary
  content, topic label). -/
  updateArticle : String → String → Option String → String
  /-- `KnowledgeNode._article_prompt` (topic, summary-node contents). -/
  article : String → List String → String
  /-- `HierarchicalMemory._new_topics_prompt` (summary content, existing
  topic labels; a `None` label is rendered `str(None)` by the prompt). -/
  newTopics : String → List (Option String) → String

/-! ## Similarity routing (`HierarchicalMemory._semantic_similarity`, memory.py lines 302-335) -/

/-- One entry of the `similarities` list: the cosine similarity paired
with (the position of) the knowledge node it was computed for; `idx`
models the Python list entry's object reference into
`self.knowledge_nodes`. -/
structure SimEntry where
  sim : ℝ
  idx : Nat

/-- The `similarities` accumulation loop (lines 312-316), starting at
position `i`: one `[similarity, knowledge_node]` entry per article, in
collection order. -/
noncomputable def simEntriesFrom (e : List ℚ) : Nat → List KnowledgeNode → List SimEntry
  | _, [] => []
  | i, kn :: rest =>
    { sim := cosSimR e kn.embedding, idx := i } :: simEntriesFrom e (i + 1) rest

/-- The full `similarities` list for a summary-node embedding `e`. -/
noncomputable def simEntries (e : List ℚ) (nodes : List KnowledgeNode) : List SimEntry :=
  simEntriesFrom e 0 nodes

/-- One insertion step of a stable descending sort on the similarity
key: an element moves left past strictly smaller keys only, so elements
with equal keys keep their original relative order. -/
noncomputable def insertDesc (x : SimEntry) : List SimEntry → List SimEntry
  | [] => [x]
  | y :: ys => if y.sim ≤ x.sim then x :: y :: ys else y :: insertDesc x ys

/-- `similarities.sort(key=lambda x: x[0], reverse=True)` (line 319):
Python's `list.sort` is stable, also with `reverse=True` (ties keep the
original order rather than being reversed); it is modelled by a stable
insertion sort on the similarity key, descending. -/
noncomputable def sortDesc : List SimEntry → List SimEntry
  | [] => []
  | x :: xs => insertDesc x (sortDesc xs)

/-- `most_similar = similarities[:n_nearest]` (line 322): the candidate
shortlist for routing a summary node. -/
noncomputable def shortlist (sn : SummaryNode) (nodes : List KnowledgeNode)
    (n_nearest : Nat) : List SimEntry :=
  (sortDesc (simEntries sn.embedding nodes)).take n_nearest

/-- The confirmation loop (lines 327-330): a shortlisted candidate is
kept exactly when the classification response contains `"<yes>"`. -/
noncomputable def confirmCandidates (o : Oracle) (sn : SummaryNode)
    (nodes : List KnowledgeNode) (most_similar : List SimEntry) : List SimEntry :=
  most_similar.filter
    (fun e => strHas (o.classify sn (nodes.getD e.idx default)) "<yes>")

/-- `HierarchicalMemory._semantic_similarity` (lines 302-335).  The
Python method returns a list of knowledge-node references or `[None]`;
references are modelled by positions into `knowledge_nodes`. -/
noncomputable def semantic_similarity (o : Oracle) (sn : SummaryNode)
    (nodes : List KnowledgeNode) (n_nearest : Nat) : List (Option Nat) :=
  if nodes.length = 0 then [none]
  else
    let most_similar := shortlist sn nodes n_nearest
    if most_similar.length = 0 then [none]
    else
      let found := confirmCandidates o sn nodes most_similar
      if found.length = 0 then [none]
      else found.map (fun e => some e.idx)

/-! ## Consolidation (`HierarchicalMemory.build_summary_node`, memory.py lines 337-365) -/

/-- The body of the update loop (lines 350-356) for one confirmed
article: append the summary-node reference to its `summary_nodes`, then
`update_article` regenerates `content` from the old content, the new
summary content and the topic label, and re-embeds. -/
noncomputable def applyUpdate (o : Oracle) (sn : SummaryNode)
    (nodes : List KnowledgeNode) (i : Nat) : List KnowledgeNode :=
  match nodes.get? i with
  | none => nodes
  | some node =>
    let newContent := o.updateArticle node.content sn.content node.topic
    nodes.set i
      { node with summary_nodes := node.summary_nodes ++ [sn],
                  content := newContent, embedding := o.embed newContent }

/-- The new-topic creation loop (lines 360-365): one fresh
`KnowledgeNode` per topic name, holding only the routed summary node;
`c` supplies the fresh ids. -/
noncomputable def makeTopicNodes (o : Oracle) (sn : SummaryNode) (model : String) :
    List String → Nat → List KnowledgeNode × Nat
  | [], c => ([], c)
  | t :: ts, c =>
    let content := o.article t [sn.content]
    let node : KnowledgeNode :=
      { id := toString c, summary_nodes := [sn], topic := some t,
        content := content, embedding := o.embed content, model := model }
    let (rest, c2) := makeTopicNodes o sn model ts (c + 1)
    (node :: rest, c2)

/-- `HierarchicalMemory.build_summary_node` (lines 337-365).  Returns the
new state, the allocation counter, and a flag recording whether the call
raised: the only raise point in this method body is the
`for topic in new_topics:` loop when `create_new_topics` returned `None`
(the gap-fill sentinel), which is a `TypeError`; mutations performed
before that point (summary node appended, buffer cleared, confirmed
articles updated) survive the raise, as in Python. -/
noncomputable def build_summary_node (o : Oracle) (n_nearest : Nat)
    (m : HierarchicalMemory) (c : Nat) : HierarchicalMemory × Nat × Bool :=
  let content := o.summarize m.logs
  let sn : SummaryNode :=
    { addr := c, id := toString c, logs := m.logs, content := content,
      embedding := o.embed content, created_at := .dt c, model := m.model }
  let c1 := c + 1
  let m1 := { m with summary_nodes := m.summary_nodes ++ [sn], logs := [] }
  let similar := semantic_similarity o sn m1.knowledge_nodes n_nearest
  let updatedIdxs := similar.filterMap id
  let kns1 := updatedIdxs.foldl (fun acc i => applyUpdate o sn acc i) m1.knowledge_nodes
  let existing_topics :=
    updatedIdxs.filterMap (fun i => (m1.knowledge_nodes.get? i).map KnowledgeNode.topic)
  let m2 := { m1 with knowledge_nodes := kns1 }
  match parseNewTopics (o.newTopics sn.content existing_topics) with
  | none => (m2, c1, true)
  | some new_topics =>
    let (created, c2) := makeTopicNodes o sn m2.model new_topics c1
    ({ m2 with knowledge_nodes := m2.knowledge_nodes ++ created }, c2, false)

/-- `HierarchicalMemory.add_log` (memory.py lines 278-282): append a log;
when the buffer length reaches the window size, consolidate.  The extra
returned `Bool` records whether this call triggered `build_summary_node`;
the flag inside the triple records a raise inside the consolidation. -/
noncomputable def add_log (o : Oracle) (role content : String)
    (m : HierarchicalMemory) (c : Nat) : (HierarchicalMemory × Nat × Bool) × Bool :=
  let log : MemoryLog := { id := toString c, role := role, content := content,
                           created_at := .dt c }
  let m1 := { m with logs := m.logs ++ [log] }
  if m1.logs.length = m1.rolling_window_size then
    (build_summary_node o 3 m1 (c + 1), true)
  else ((m1, c + 1, false), false)

/-- A sequence of `add_log` calls, counting how many of them triggered a
consolidation. -/
noncomputable def runAddLogs (o : Oracle) :
    List (String × String) → HierarchicalMemory → Nat → HierarchicalMemory × Nat × Nat
  | [], m, c => (m, c, 0)
  | (role, content) :: rest, m, c =>
    let r := add_log o role content m c
    let s := runAddLogs o rest r.1.1 r.1.2.1
    (s.1, s.2.1, (if r.2 then 1 else 0) + s.2.2)

/-! ## Order-theoretic facts about the routing sort -/

/-- The ordering the specification describes for the routing sort:
strictly greater similarity first, and equal similarities resolved by
the articles' original insertion order (smaller position first). -/
def simOrd (a b : SimEntry) : Prop :=
  b.sim < a.sim ∨ (a.sim = b.sim ∧ a.idx < b.idx)

lemma insertDesc_perm (x : SimEntry) (l : List SimEntry) :
    (insertDesc x l).Perm (x :: l) := by
  induction l with
  | nil => rfl
  | cons y ys ih =>
    show (if y.sim ≤ x.sim then x :: y :: ys else y :: insertDesc x ys).Perm _
    split
    · rfl
    · exact ((ih.cons y).trans (List.Perm.swap x y ys))

lemma sortDesc_perm (l : List SimEntry) : (sortDesc l).Perm l := by
  induction l with
  | nil => rfl
  | cons x xs ih => exact (insertDesc_perm x (sortDesc xs)).trans (ih.cons x)

lemma insertDesc_pairwise (x : SimEntry) (l : List SimEntry)
    (h : l.Pairwise simOrd) (hx : ∀ y ∈ l, x.sim = y.sim → x.idx < y.idx) :
    (insertDesc x l).Pairwise simOrd := by
  induction l with
  | nil => simp [insertDesc, simOrd]
  | cons y ys ih =>
    show (if y.sim ≤ x.sim then x :: y :: ys else y :: insertDesc x ys).Pairwise simOrd
    rcases List.pairwise_cons.mp h with ⟨hy, hys⟩
    split
    · rename_i hle
      refine List.pairwise_cons.mpr ⟨?_, h⟩
      intro z hz
      rcases List.mem_cons.mp hz with hzy | hz2
      · rcases lt_or_eq_of_le hle with hlt | heq
        · exact Or.inl (hzy ▸ hlt)
        · exact Or.inr ⟨(hzy ▸ heq).symm, hx z hz (hzy ▸ heq).symm⟩
      · rcases hy z hz2 with hlt | ⟨heq, _⟩
        · exact Or.inl (lt_of_lt_of_le hlt hle)
        · rcases lt_or_eq_of_le hle with hlt2 | heq2
          · exact Or.inl (heq ▸ hlt2)
          · exact Or.inr ⟨(heq2.symm.trans heq), hx z (by simp [hz2]) (heq2.symm.trans heq)⟩
    · rename_i hgt
      have hxlt : x.sim < y.sim := lt_of_not_le hgt
      refine List.pairwise_cons.mpr ⟨?_, ih hys (fun z hz hzs => hx z (by simp [hz]) hzs)⟩
      intro z hz
      have hz2 : z ∈ x :: ys := (insertDesc_perm x ys).mem_iff.mp hz
      rcases List.mem_cons.mp hz2 with hzx | hz3
      · exact Or.inl (hzx ▸ hxlt)
      · exact hy z hz3

lemma sortDesc_pairwise (l : List SimEntry)
    (h : l.Pairwise (fun a b => a.idx < b.idx)) :
    (sortDesc l).Pairwise simOrd := by
  induction l with
  | nil => simp [sortDesc]
  | cons x xs ih =>
    rcases List.pairwise_cons.mp h with ⟨hx, hxs⟩
    refine insertDesc_pairwise x (sortDesc xs) (ih hxs) ?_
    intro y hy _
    exact hx y ((sortDesc_perm xs).mem_iff.mp hy)

lemma simEntriesFrom_idx (e : List ℚ) :
    ∀ (nodes : List KnowledgeNode) (i : Nat),
      (simEntriesFrom e i nodes).map SimEntry.idx = List.range' i nodes.length := by
  intro nodes
  induction nodes with
  | nil => intro i; rfl
  | cons k t ih => intro i; simp [simEntriesFrom, List.range', ih]

lemma simEntriesFrom_sim (e : List ℚ) :
    ∀ (nodes : List KnowledgeNode) (i : Nat),
      (simEntriesFrom e i nodes).map SimEntry.sim =
        nodes.map (fun kn => cosSimR e kn.embedding) := by
  intro nodes
  induction nodes with
  | nil => intro i; rfl
  | cons k t ih => intro i; simp [simEntriesFrom, ih]

lemma simEntriesFrom_idx_lb (e : List ℚ) :
    ∀ (nodes : List KnowledgeNode) (i : Nat),
      ∀ y ∈ simEntriesFrom e i nodes, i ≤ y.idx := by
  intro nodes
  induction nodes with
  | nil =>
    intro i y hy
    simp [simEntriesFrom] at hy
  | cons k t ih =>
    intro i y hy
    rcases List.mem_cons.mp hy with hy1 | hy2
    · rw [hy1]
    · exact le_trans (Nat.le_succ i) (ih (i + 1) y hy2)

lemma simEntriesFrom_idx_pairwise (e : List ℚ) :
    ∀ (nodes : List KnowledgeNode) (i : Nat),
      (simEntriesFrom e i nodes).Pairwise (fun a b => a.idx < b.idx) := by
  intro nodes
  induction nodes with
  | nil => intro i; simp [simEntriesFrom]
  | cons k t ih =>
    intro i
    refine List.pairwise_cons.mpr ⟨?_, ih (i + 1)⟩
    intro y hy
    exact lt_of_lt_of_le (Nat.lt_succ_self i) (simEntriesFrom_idx_lb e t (i + 1) y hy)

/-! ## State facts about consolidation and the rolling buffer -/

lemma runAddLogs_cons (o : Oracle) (role content : String)
    (rest : List (String × String)) (m : HierarchicalMemory) (c : Nat) :
    runAddLogs o ((role, content) :: rest) m c =
      ((runAddLogs o rest (add_log o role content m c).1.1
          (add_log o role content m c).1.2.1).1,
       (runAddLogs o rest (add_log o role content m c).1.1
          (add_log o role content m c).1.2.1).2.1,
       (if (add_log o role content m c).2 then 1 else 0) +
         (runAddLogs o rest (add_log o role content m c).1.1
            (add_log o role content m c).1.2.1).2.2) := rfl

lemma build_state (o : Oracle) (n : Nat) (m : HierarchicalMemory) (c : Nat) :
    (build_summary_node o n m c).1.logs = [] ∧
      (build_summary_node o n m c).1.rolling_window_size = m.rolling_window_size := by
  unfold build_summary_node
  dsimp only
  split
  · exact ⟨rfl, rfl⟩
  · exact ⟨rfl, rfl⟩

lemma build_flag_false (o : Oracle) (n : Nat) (m : HierarchicalMemory) (c : Nat)
    (h : ∀ s ts, hasSentinel (o.newTopics s ts) = false) :
    (build_summary_node o n m c).2.2 = false := by
  unfold build_summary_node
  simp only [parseNewTopics, h, Bool.false_eq_true, if_false]

lemma build_flag_true (o : Oracle) (n : Nat) (m : HierarchicalMemory) (c : Nat)
    (h : ∀ s ts, hasSentinel (o.newTopics s ts) = true) :
    (build_summary_node o n m c).2.2 = true := by
  unfold build_summary_node
  simp only [parseNewTopics, h, if_true]

lemma add_log_spec (o : Oracle) (role content : String)
    (m : HierarchicalMemory) (c : Nat) :
    (m.logs.length + 1 ≠ m.rolling_window_size →
      (add_log o role content m c).2 = false ∧
      (add_log o role content m c).1.1.logs.length = m.logs.length + 1 ∧
      (add_log o role content m c).1.1.rolling_window_size = m.rolling_window_size)
    ∧ (m.logs.length + 1 = m.rolling_window_size →
      (add_log o role content m c).2 = true ∧
      (add_log o role content m c).1.1.logs = [] ∧
      (add_log o role content m c).1.1.rolling_window_size = m.rolling_window_size) := by
  constructor
  · intro h
    simp [add_log, h]
  · intro h
    simp [add_log, h, build_state]

lemma runAddLogs_under (o : Oracle) :
    ∀ (msgs : List (String × String)) (m : HierarchicalMemory) (c : Nat),
      m.logs.length + msgs.length < m.rolling_window_size →
      (runAddLogs o msgs m c).2.2 = 0 ∧
        (runAddLogs o msgs m c).1.logs.length = m.logs.length + msgs.length ∧
        (runAddLogs o msgs m c).1.rolling_window_size = m.rolling_window_size := by
  intro msgs
  induction msgs with
  | nil =>
    intro m c h
    exact ⟨rfl, by simp [runAddLogs], rfl⟩
  | cons p rest ih =>
    intro m c h
    obtain ⟨role, content⟩ := p
    have hne : m.logs.length + 1 ≠ m.rolling_window_size := by
      simp at h
      omega
    obtain ⟨hflag, hlen, hwin⟩ := (add_log_spec o role content m c).1 hne
    have hrec := ih (add_log o role content m c).1.1
      (add_log o role content m c).1.2.1 (by rw [hlen, hwin]; simp at h ⊢; omega)
    rw [runAddLogs_cons]
    refine ⟨?_, ?_, ?_⟩
    · simp [hflag, hrec.1]
    · rw [hrec.2.1, hlen]
      simp
      omega
    · rw [hrec.2.2, hwin]

lemma runAddLogs_exact (o : Oracle) :
    ∀ (msgs : List (String × String)) (m : HierarchicalMemory) (c : Nat),
      msgs ≠ [] →
      m.logs.length + msgs.length = m.rolling_window_size →
      (runAddLogs o msgs m c).2.2 = 1 ∧ (runAddLogs o msgs m c).1.logs = [] := by
  intro msgs
  induction msgs with
  | nil =>
    intro m c hne h
    exact absurd rfl hne
  | cons p rest ih =>
    intro m c _ h
    obtain ⟨role, content⟩ := p
    cases hrest : rest with
    | nil =>
      subst hrest
      have heq : m.logs.length + 1 = m.rolling_window_size := by
        simpa using h
      obtain ⟨hflag, hlogs, _⟩ := (add_log_spec o role content m c).2 heq
      rw [runAddLogs_cons]
      refine ⟨by simp [hflag, runAddLogs], ?_⟩
      simpa [runAddLogs] using hlogs
    | cons q qs =>
      subst hrest
      have hne : m.logs.length + 1 ≠ m.rolling_window_size := by
        simp at h
        omega
      obtain ⟨hflag, hlen, hwin⟩ := (add_log_spec o role content m c).1 hne
      have hrec := ih (add_log o role content m c).1.1
        (add_log o role content m c).1.2.1 (by simp)
        (by rw [hlen, hwin]; simp at h ⊢; omega)
      rw [runAddLogs_cons]
      exact ⟨by simp [hflag, hrec.1], hrec.2⟩

/-! ## Concrete fixtures for witnesses and counterexamples -/

/-- A benign oracle: gap-fill always proposes the single topic `"T"`,
classification always answers the positive marker. -/
def oracleY : Oracle :=
  { summarize := fun _ => "summary",
    embed := fun _ => [1],
    classify := fun _ _ => "<yes>",
    updateArticle := fun _ _ _ => "merged",
    article := fun _ _ => "article",
    newTopics := fun _ _ => "[T]" }

/-- An oracle whose gap-fill service follows its own prompt instructions
and answers the sentinel `"[no topic found]"`. -/
def oracleSentinel : Oracle :=
  { summarize := fun _ => "summary",
    embed := fun _ => [1],
    classify := fun _ _ => "<no>",
    updateArticle := fun _ _ _ => "merged",
    article := fun _ _ => "article",
    newTopics := fun _ _ => "[no topic found]" }

/-- An empty store with window size 1. -/
def memW1 : HierarchicalMemory :=
  { logs := [], summary_nodes := [], knowledge_nodes := [],
    rolling_window_size := 1, model := "gpt-3.5-turbo" }

example : (runAddLogs oracleY [("user", "hi")] memW1 0).2.2 = 1 := by decide
example : (build_summary_node oracleSentinel 3 memW1 0).2.2 = true := by decide
example : (build_summary_node oracleSentinel 3 memW1 0).1.knowledge_nodes = [] := by
  decide
example : (build_summary_node oracleY 3 memW1 0).2.2 = false := by decide

/-- A concrete summary node used by witnesses. -/
def snF : SummaryNode :=
  { addr := 0, id := "sn-w", logs := [], content := "summary content",
    embedding := [1], created_at := .dt 0, model := "m" }

/-- A concrete article used by witnesses, embedding `[1, 0]`. -/
def knA : KnowledgeNode :=
  { id := "kn-a", summary_nodes := [], topic := some "A", content := "about A",
    embedding := [1, 0], model := "m" }

/-- A concrete article used by witnesses, embedding `[0, 1]`. -/
def knB : KnowledgeNode :=
  { id := "kn-b", summary_nodes := [], topic := some "B", content := "about B",
    embedding := [0, 1], model := "m" }

/-- A store holding the two articles `knA`, `knB`, in that order. -/
def memAB : HierarchicalMemory :=
  { logs := [], summary_nodes := [], knowledge_nodes := [knA, knB],
    rolling_window_size := 20, model := "m" }

/-! ## The claims -/

/-- C1 (code_bug): the claim says that on a gap-fill response containing
the `"no topic found"` sentinel (any casing/whitespace),
`create_new_topics` returns the empty list and consolidation creates
zero new topic articles without raising.  The sentinel detection itself
is casing/whitespace-robust as claimed, but the method returns `None`
(not `[]`), and `build_summary_node` then iterates over that `None`
(`for topic in new_topics:`), raising a `TypeError`: the third conjunct
evaluates the consolidation under an oracle whose gap-fill service
answers exactly the sentinel string its own prompt instructs it to use,
and the raise flag is set; no new article is created only because the
whole consolidation crashes. -/
theorem claim_C1_sentinel_crash :
    parseNewTopics "[no topic found]" = none
    ∧ parseNewTopics " NO Topic Found " = none
    ∧ (build_summary_node oracleSentinel 3 memW1 0).2.2 = true
    ∧ (build_summary_node oracleSentinel 3 memW1 0).1.knowledge_nodes = [] := by
  exact ⟨by decide, by decide, by decide, by decide⟩

/-- C2 (counterexample): `"[Topic A; Topic B]"` does not parse to
`["Topic A", "Topic B"]` — the results of the two bracket-stripping
`replace` calls are discarded, split fields are not trimmed, and empty
entries are not removed. -/
theorem claim_C2_counterexample :
    parseNewTopics "[Topic A; Topic B]" ≠ some ["Topic A", "Topic B"] := by
  decide

/-- C2 (amended): non-sentinel gap-fill parsing removes apostrophe
characters and splits on `';'`, but keeps the brackets (the bracket
`replace` results are discarded on lines 399-400), keeps surrounding
whitespace, and keeps empty entries; in particular
`"[Topic A; Topic B]"` parses to `["[Topic A", " Topic B]"]`. -/
theorem claim_C2_amended :
    parseNewTopics "[Topic A; Topic B]" = some ["[Topic A", " Topic B]"]
    ∧ parseNewTopics "a;;b" = some ["a", "", "b"]
    ∧ parseNewTopics (String.singleton quoteChar ++ "[x; y]" ++
        String.singleton quoteChar) = some ["[x", " y]"] := by
  exact ⟨by decide, by decide, by decide⟩

/-- The value content of a whole store: logs, summary nodes and topic
articles projected to the fields the round-trip claim lists. -/
def storeView (m : HierarchicalMemory) :
    List (String × String × String) ×
      List (String × String × List ℚ × List (String × String × String)) ×
      List (String × Option String × String × List ℚ ×
        List (String × String × List ℚ × List (String × String × String))) :=
  (m.logs.map logView, m.summary_nodes.map snView, m.knowledge_nodes.map knView)

/-- C3 (counterexample): in the store `memX` the first article's
summary-node reference and the first top-level summary node are the same
object (equal addresses, both 5); after a serialize/deserialize round
trip the reconstructed store holds two distinct freshly allocated
objects (addresses 0 and 1) — the reference structure is duplicated, not
shared, so reloading does not reproduce the original reference
structure. -/
theorem claim_C3_counterexample :
    firstTopAddr memX = firstRefAddr memX
    ∧ (loadMemory (some memX.to_json) 0).map (fun p => firstTopAddr p.1) =
        some (some 0)
    ∧ (loadMemory (some memX.to_json) 0).map (fun p => firstRefAddr p.1) =
        some (some 1) := by
  exact ⟨by decide, by decide, by decide⟩

/-- C3 (amended): deserializing a serialized store always succeeds and
reproduces the identical ids, roles, contents, embeddings and topics of
the logs, the summary nodes and the topic articles, including the value
content of each article's referenced summary nodes — but each
article's `summary_nodes` entries are reconstructed as fresh structurally
equal copies, not resolved to the top-level `SummaryNode` instances
(see the counterexample), and `created_at` values come back in their
textual encoding. -/
theorem claim_C3_amended (m : HierarchicalMemory) (c : Nat) :
    (HierarchicalMemory.from_json m.to_json c).map (fun p => storeView p.1) =
      some (storeView m) := by
  rw [from_json_to_json]
  have hlogs : (m.logs.map MemoryLog.rt).map logView = m.logs.map logView := by
    rw [List.map_map]
    exact List.map_congr_left (fun a _ => rfl)
  simp [storeView, HierarchicalMemory.rt, rtSNodes_view, rtKNodes_view, hlogs]

/-- C4 (counterexample): loading from a missing file (no parsed
document) or from a corrupt document does not fall back to an empty
store — `from_json` has no error handling of its own, so the exception
propagates to the caller (modelled by `none`: no store of any kind is
produced). -/
theorem claim_C4_counterexample :
    loadMemory none 0 = none
    ∧ loadMemory (some (JVal.str "corrupt")) 0 = none := by
  exact ⟨rfl, rfl⟩

/-- C4 (amended): `from_json` itself raises on a missing or corrupt
document; the fallback the claim describes lives in the callers — the
entry points (main.py / tests/main.py) wrap the load in `try/except` and
construct a fresh empty `HierarchicalMemory()` (empty buffer, no summary
nodes, no topic articles) whenever the load raises. -/
theorem claim_C4_amended (doc : Option JVal) (c : Nat)
    (h : loadMemory doc c = none) :
    loadOrInit doc c = HierarchicalMemory.mkInit "gpt-3.5-turbo"
    ∧ (loadOrInit doc c).logs = []
    ∧ (loadOrInit doc c).summary_nodes = []
    ∧ (loadOrInit doc c).knowledge_nodes = [] := by
  simp [loadOrInit, h, HierarchicalMemory.mkInit]

/-- C4 (witness): the amended statement at the missing-document input. -/
theorem claim_C4_witness :
    loadMemory (none : Option JVal) 0 = none
    ∧ loadOrInit none 0 = HierarchicalMemory.mkInit "gpt-3.5-turbo" :=
  ⟨rfl, (claim_C4_amended none 0 rfl).1⟩

/-- C5 (confirmed): starting from an empty buffer with any window size
`W ≥ 1` and any oracle, a sequence of exactly `W` `add_log` calls
triggers the consolidation exactly once and leaves the buffer empty (the
buffer is cleared even if the consolidation itself subsequently raises),
while `W − 1` calls trigger no consolidation and leave `W − 1` buffered
logs. -/
theorem claim_C5_window (o : Oracle) (m : HierarchicalMemory)
    (msgs : List (String × String)) (c : Nat)
    (hempty : m.logs = []) (hW : 1 ≤ m.rolling_window_size) :
    (msgs.length = m.rolling_window_size →
      (runAddLogs o msgs m c).2.2 = 1 ∧ (runAddLogs o msgs m c).1.logs = [])
    ∧ (msgs.length + 1 = m.rolling_window_size →
      (runAddLogs o msgs m c).2.2 = 0 ∧
        (runAddLogs o msgs m c).1.logs.length = msgs.length) := by
  constructor
  · intro hlen
    apply runAddLogs_exact o msgs m c
    · intro hnil
      rw [hnil] at hlen
      simp at hlen
      omega
    · rw [hempty]
      simpa using hlen
  · intro hlen
    have h := runAddLogs_under o msgs m c (by rw [hempty]; simp; omega)
    refine ⟨h.1, ?_⟩
    rw [h.2.1, hempty]
    simp

/-- C5 (witness): the window-size-1 instance — one `add_log` call on an
empty store of window 1 triggers exactly one consolidation and empties
the buffer. -/
theorem claim_C5_witness :
    (memW1.logs = [] ∧ 1 ≤ memW1.rolling_window_size ∧
      [("user", "hi")].length = memW1.rolling_window_size)
    ∧ ((runAddLogs oracleY [("user", "hi")] memW1 0).2.2 = 1 ∧
        (runAddLogs oracleY [("user", "hi")] memW1 0).1.logs = []) :=
  ⟨⟨rfl, by decide, by decide⟩,
   (claim_C5_window oracleY memW1 [("user", "hi")] 0 rfl (by decide)).1 (by decide)⟩

/-- C6 (confirmed): `query` returns `none` on a store without topic
articles, and otherwise returns an article of the collection that
maximizes cosine similarity to the query embedding such that every
article listed before it has strictly smaller similarity — i.e. the
first-encountered article attaining the maximum (so with similarities
0.9 and 0.5 the 0.9 article is returned). -/
theorem claim_C6_query (m : HierarchicalMemory) (qe : List ℚ) :
    (m.knowledge_nodes = [] → m.query qe = none)
    ∧ ∀ x xs, m.knowledge_nodes = x :: xs →
        ∃ r l1 l2,
          m.query qe = some r
          ∧ m.knowledge_nodes = l1 ++ r :: l2
          ∧ (∀ y ∈ m.knowledge_nodes,
              cosSimR y.embedding qe ≤ cosSimR r.embedding qe)
          ∧ (∀ y ∈ l1, cosSimR y.embedding qe < cosSimR r.embedding qe) := by
  constructor
  · intro h
    simp [HierarchicalMemory.query, h]
  · intro x xs h
    have hq : m.query qe =
        some (pyMax (fun node => cosSimR node.embedding qe) x xs) := by
      simp [HierarchicalMemory.query, h]
    obtain ⟨l1, l2, hd, hs⟩ :=
      pyMax_first (fun node => cosSimR node.embedding qe) xs x
    refine ⟨_, l1, l2, hq, by rw [h, hd], ?_, hs⟩
    intro y hy
    rw [h] at hy
    rcases List.mem_cons.mp hy with hyx | hy2
    · rw [hyx]
      exact (pyMax_le (fun node => cosSimR node.embedding qe) xs x).1
    · exact (pyMax_le (fun node => cosSimR node.embedding qe) xs x).2 y hy2

/-- C6 (witness): the two-article store `memAB`. -/
theorem claim_C6_witness :
    ∃ r l1 l2,
      memAB.query [1, 0] = some r
      ∧ memAB.knowledge_nodes = l1 ++ r :: l2
      ∧ (∀ y ∈ memAB.knowledge_nodes,
          cosSimR y.embedding [1, 0] ≤ cosSimR r.embedding [1, 0])
      ∧ (∀ y ∈ l1, cosSimR y.embedding [1, 0] < cosSimR r.embedding [1, 0]) :=
  (claim_C6_query memAB [1, 0]).2 knA [knB] rfl

/-- C7 (counterexample): `[0]` has zero norm, yet
`cosine_similarity([0], [1])` does not fail — numpy float division by
zero is total, so the call silently returns the numeric object `nan`
(with only a runtime warning) instead of being treated as a fatal input
error. -/
theorem claim_C7_counterexample : cosine_similarity [0] [1] = PyFloat.nan := by
  have h0 : dotQ [(0 : ℚ)] [1] = 0 := by simp [dotQ]
  have h1 : dotQ [(0 : ℚ)] [0] = 0 := by simp [dotQ]
  simp [cosine_similarity, pyDiv, normE, h0, h1]

/-- C7 (amended): cosine similarity is symmetric, equals 1 on any vector
of nonzero norm compared with itself, and equals
`dot(a,b)/(‖a‖·‖b‖)` whenever the norm product is nonzero; but when
either vector has zero norm the operation does not fail — it silently
produces one of the non-finite float values (`nan` or `±inf`). -/
theorem claim_C7_amended :
    (∀ a b : List ℚ, cosine_similarity a b = cosine_similarity b a)
    ∧ (∀ a : List ℚ, dotQ a a ≠ 0 → cosine_similarity a a = .real 1)
    ∧ (∀ a b : List ℚ, normE a * normE b ≠ 0 →
        cosine_similarity a b = .real (cosSimR a b))
    ∧ (∀ a b : List ℚ, normE a * normE b = 0 →
        cosine_similarity a b = PyFloat.nan ∨
          cosine_similarity a b = PyFloat.inf ∨
          cosine_similarity a b = PyFloat.neginf) := by
  refine ⟨?_, ?_, ?_, ?_⟩
  · intro a b
    unfold cosine_similarity
    rw [dotQ_comm a b, mul_comm]
  · intro a hd
    have hnn : (0 : ℝ) ≤ ((dotQ a a : ℚ) : ℝ) := by
      exact_mod_cast dotQ_self_nonneg a
    have hsq : normE a * normE a = ((dotQ a a : ℚ) : ℝ) := by
      unfold normE
      exact Real.mul_self_sqrt hnn
    have hne : ((dotQ a a : ℚ) : ℝ) ≠ 0 := by
      exact_mod_cast hd
    unfold cosine_similarity pyDiv
    rw [hsq, if_neg hne, div_self hne]
  · intro a b h
    exact cosine_similarity_real a b h
  · intro a b h
    unfold cosine_similarity pyDiv
    rw [if_pos h]
    split
    · exact Or.inl rfl
    · split
      · exact Or.inr (Or.inl rfl)
      · exact Or.inr (Or.inr rfl)

/-- C7 (witness): the amended statement instantiated — self-similarity 1
on the unit vector `[1]`, the quotient formula on `([1], [1])`, the
silent non-finite result on the zero vectors, and symmetry on
`([1, 2], [3])`. -/
theorem claim_C7_witness :
    (dotQ [(1 : ℚ)] [1] ≠ 0 ∧ cosine_similarity [(1 : ℚ)] [1] = .real 1)
    ∧ (normE [(1 : ℚ)] * normE [1] ≠ 0 ∧
        cosine_similarity [(1 : ℚ)] [1] = .real (cosSimR [1] [1]))
    ∧ (normE [(0 : ℚ)] * normE [0] = 0 ∧
        (cosine_similarity [(0 : ℚ)] [0] = PyFloat.nan ∨
          cosine_similarity [(0 : ℚ)] [0] = PyFloat.inf ∨
          cosine_similarity [(0 : ℚ)] [0] = PyFloat.neginf))
    ∧ cosine_similarity [1, 2] [3] = cosine_similarity [3] [1, 2] := by
  have h1 : dotQ [(1 : ℚ)] [1] ≠ 0 := by simp [dotQ]
  have h2 : normE [(1 : ℚ)] * normE [1] ≠ 0 := by
    have : dotQ [(1 : ℚ)] [1] = 1 := by simp [dotQ]
    simp [normE, this]
  have h3 : normE [(0 : ℚ)] * normE [0] = 0 := by
    have : dotQ [(0 : ℚ)] [0] = 0 := by simp [dotQ]
    simp [normE, this]
  exact ⟨⟨h1, claim_C7_amended.2.1 [1] h1⟩,
    ⟨h2, claim_C7_amended.2.2.1 [1] [1] h2⟩,
    ⟨h3, claim_C7_amended.2.2.2 [0] [0] h3⟩,
    claim_C7_amended.1 [1, 2] [3]⟩

/-- C8 (confirmed): a shortlisted routing candidate is confirmed
relevant exactly when the classification response contains the literal
marker `"<yes>"` (any other response, however malformed, makes it
not-relevant); each confirmed article gets the new summary node appended
to its `summary_nodes` and its content regenerated by the merge request
and re-embedded; and no classifier output can make the consolidation
raise — the only raise point of `build_summary_node` is the gap-fill
sentinel (claim C1), so under any classifier whatsoever the
consolidation completes whenever the gap-fill response is
non-sentinel. -/
theorem claim_C8_classification :
    (∀ (o : Oracle) (sn : SummaryNode) (nodes : List KnowledgeNode)
        (ms : List SimEntry) (e : SimEntry),
      e ∈ confirmCandidates o sn nodes ms ↔
        e ∈ ms ∧ strHas (o.classify sn (nodes.getD e.idx default)) "<yes>" = true)
    ∧ (∀ (o : Oracle) (sn : SummaryNode) (nodes : List KnowledgeNode)
        (i : Nat) (node : KnowledgeNode), nodes.get? i = some node →
        applyUpdate o sn nodes i =
          nodes.set i
            { node with
                summary_nodes := node.summary_nodes ++ [sn],
                content := o.updateArticle node.content sn.content node.topic,
                embedding :=
                  o.embed (o.updateArticle node.content sn.content node.topic) })
    ∧ (∀ (o : Oracle) (n : Nat) (m : HierarchicalMemory) (c : Nat),
        (∀ s ts, hasSentinel (o.newTopics s ts) = false) →
        (build_summary_node o n m c).2.2 = false) := by
  refine ⟨?_, ?_, ?_⟩
  · intro o sn nodes ms e
    simp [confirmCandidates, List.mem_filter]
  · intro o sn nodes i node h
    rw [List.get?_eq_getElem?] at h
    simp [applyUpdate, h]
  · intro o n m c h
    exact build_flag_false o n m c h

/-- C8 (witness): the classification marker confirms the one-article
shortlist under `oracleY` (which always answers `"<yes>"`), the update
effect on that article, and the completed (non-raising) consolidation
under `oracleY`'s non-sentinel gap-fill. -/
theorem claim_C8_witness :
    ((⟨1, 0⟩ : SimEntry) ∈ confirmCandidates oracleY snF [knA] [⟨1, 0⟩])
    ∧ ([knA].get? 0 = some knA ∧
        applyUpdate oracleY snF [knA] 0 =
          [knA].set 0
            { knA with
                summary_nodes := knA.summary_nodes ++ [snF],
                content := oracleY.updateArticle knA.content snF.content knA.topic,
                embedding :=
                  oracleY.embed
                    (oracleY.updateArticle knA.content snF.content knA.topic) })
    ∧ ((∀ s ts, hasSentinel (oracleY.newTopics s ts) = false) ∧
        (build_summary_node oracleY 1 memW1 0).2.2 = false) := by
  have hsent : ∀ s ts, hasSentinel (oracleY.newTopics s ts) = false :=
    fun _ _ => show hasSentinel "[T]" = false by decide
  refine ⟨?_, ⟨rfl, ?_⟩, ⟨hsent, ?_⟩⟩
  · exact (claim_C8_classification.1 oracleY snF [knA] [⟨1, 0⟩] ⟨1, 0⟩).mpr
      ⟨by simp, by decide⟩
  · exact claim_C8_classification.2.1 oracleY snF [knA] 0 knA rfl
  · exact claim_C8_classification.2.2 oracleY 1 memW1 0 hsent

/-- C9 (confirmed): during routing, the candidate shortlist is exactly
the first `n_nearest` entries of the similarity-annotated article list
sorted by cosine similarity to the summary node's embedding in
descending order with equal similarities resolved by original insertion
order: the sorted sequence is a permutation of the annotated list,
pairwise ordered by strictly-greater similarity or
equal-similarity-and-smaller-insertion-index, and the annotated list
pairs each article (in collection order, positions
`0 .. nodes.length − 1`) with its cosine similarity to the summary
embedding. -/
theorem claim_C9_shortlist (sn : SummaryNode) (nodes : List KnowledgeNode)
    (n_nearest : Nat) :
    shortlist sn nodes n_nearest =
      (sortDesc (simEntries sn.embedding nodes)).take n_nearest
    ∧ (sortDesc (simEntries sn.embedding nodes)).Perm (simEntries sn.embedding nodes)
    ∧ (sortDesc (simEntries sn.embedding nodes)).Pairwise simOrd
    ∧ (simEntries sn.embedding nodes).map SimEntry.sim =
        nodes.map (fun kn => cosSimR sn.embedding kn.embedding)
    ∧ (simEntries sn.embedding nodes).map SimEntry.idx =
        List.range nodes.length := by
  refine ⟨rfl, sortDesc_perm _,
    sortDesc_pairwise _ (simEntriesFrom_idx_pairwise sn.embedding nodes 0),
    simEntriesFrom_sim sn.embedding nodes 0, ?_⟩
  rw [simEntries, simEntriesFrom_idx sn.embedding nodes 0, List.range_eq_range']

lemma rtSNodes_model (ls : List SummaryNode) (c : Nat) :
    (rtSNodes ls c).1.map SummaryNode.model = ls.map SummaryNode.model := by
  induction ls generalizing c with
  | nil => rfl
  | cons h t ih => simp [rtSNodes, SummaryNode.rt, ih]

lemma rtKNodes_model (ls : List KnowledgeNode) (c : Nat) :
    (rtKNodes ls c).1.map KnowledgeNode.model = ls.map KnowledgeNode.model := by
  induction ls generalizing c with
  | nil => rfl
  | cons h t ih => simp [rtKNodes, KnowledgeNode.rt, ih]

/-- C10 (confirmed): the persisted document has exactly the three
collection keys (no store-level model identifier or window size), so a
deserialized store always carries the construction defaults — model
`"gpt-3.5-turbo"` and rolling window size 20 — whatever the original
store was configured with, while the per-node model identifiers recorded
in summary nodes and topic articles are preserved. -/
theorem claim_C10_serialization (m : HierarchicalMemory) (c : Nat) :
    jKeys m.to_json = ["logs", "summary_nodes", "knowledge_nodes"]
    ∧ (HierarchicalMemory.from_json m.to_json c).map (fun p => p.1.model) =
        some "gpt-3.5-turbo"
    ∧ (HierarchicalMemory.from_json m.to_json c).map
        (fun p => p.1.rolling_window_size) = some 20
    ∧ (HierarchicalMemory.from_json m.to_json c).map
        (fun p => p.1.summary_nodes.map SummaryNode.model) =
        some (m.summary_nodes.map SummaryNode.model)
    ∧ (HierarchicalMemory.from_json m.to_json c).map
        (fun p => p.1.knowledge_nodes.map KnowledgeNode.model) =
        some (m.knowledge_nodes.map KnowledgeNode.model) := by
  refine ⟨rfl, ?_, ?_, ?_, ?_⟩ <;>
    rw [from_json_to_json] <;>
    simp [HierarchicalMemory.rt, rtSNodes_model, rtKNodes_model]
